import Mathlib

set_option linter.unusedVariables false

namespace FM301

/-! Shallow embedding of src/fm301_cc.py, the WMO FM301 NetCDF compliance
checker.  Python strings are Lean strings; the string methods the program
uses (replace, split, startswith, in, lower, str(int)) are modelled over the
underlying character lists.  The netCDF data source is modelled at the
adapter level: a group holds named attributes, variables and subgroups, a
variable holds a dtype name, a scalar flag, its elements and its attributes.
Fallible Python operations (getValue on a non-scalar variable, re.match on a
list pattern, indexing an empty path list, a missing dict key) are modelled
with Except/Option; an escaped exception aborts the run while the rows
already appended to the mutable result lists are kept. -/

/-- Python str.replace over character lists: replaces every non-overlapping
occurrence of `pat` (scanning left to right) by `rep`.  An empty pattern is
treated as matching nowhere; the program only replaces the nonempty patterns
given by the placeholder token and the decimal sweep index.  The first
argument is fuel, always supplied as the length of the scanned list, which
bounds the recursion depth. -/
def replAuxF (pat rep : List Char) : Nat → List Char → List Char
  | 0, s => s
  | _ + 1, [] => []
  | f + 1, c :: cs =>
    if pat ≠ [] ∧ pat.isPrefixOf (c :: cs) then
      rep ++ replAuxF pat rep f (List.drop (pat.length - 1) cs)
    else
      c :: replAuxF pat rep f cs

/-- Python substring membership `sub in s` over character lists. -/
def subAux (sub : List Char) : List Char → Bool
  | [] => sub.isEmpty
  | c :: cs => sub.isPrefixOf (c :: cs) || subAux sub cs

/-- Python str.split on a one-character separator, over character lists. -/
def splitAux (sep : Char) : List Char → List (List Char)
  | [] => [[]]
  | c :: cs =>
    match splitAux sep cs with
    | [] => [[]]
    | h :: t => if c = sep then [] :: h :: t else (c :: h) :: t

/-- Decimal digits with fuel bounding the recursion depth (the fuel is
always supplied as the number itself, which dominates the digit count). -/
def natDigitsF : Nat → Nat → List Char
  | 0, n => [Nat.digitChar n]
  | f + 1, n =>
    if n < 10 then [Nat.digitChar n]
    else natDigitsF f (n / 10) ++ [Nat.digitChar (n % 10)]

/-- Decimal digit list of a natural number: the model of Python str(i) for
the nonnegative sweep indices the program produces. -/
def natDigits (n : Nat) : List Char := natDigitsF n n

def pyReplace (s pat rep : String) : String :=
  String.mk (replAuxF pat.data rep.data s.data.length s.data)

def pyContainsSub (s sub : String) : Bool := subAux sub.data s.data

def pySplitOnSlash (s : String) : List String := (splitAux '/' s.data).map String.mk

def pyStartsWith (s head : String) : Bool := head.data.isPrefixOf s.data

def pyLower (s : String) : String := String.mk (s.data.map Char.toLower)

def natStr (n : Nat) : String := String.mk (natDigits n)

/-- A Python value the data source adapter can hand back: a string, or a
numpy scalar carrying its dtype name and its printed literal. -/
inductive PyVal where
  | vstr (s : String)
  | vnum (dt : String) (lit : String)
deriving DecidableEq

/-- Python str() of an adapter value. -/
def pyStrVal : PyVal → String
  | .vstr s => s
  | .vnum _ lit => lit

/-- Python repr() of an adapter value, as used when a list is printed. -/
def pyReprVal : PyVal → String
  | .vstr s => "\x27" ++ s ++ "\x27"
  | .vnum _ lit => lit

def pyStrValList (l : List PyVal) : String :=
  "[" ++ String.intercalate ", " (l.map pyReprVal) ++ "]"

def pyStrOptVal : Option PyVal → String
  | none => "None"
  | some v => pyStrVal v

def pyStrOptList : Option (List PyVal) → String
  | none => "None"
  | some l => pyStrValList l

/-- type(value).__name__ for the values the adapter can return. -/
def typeName : PyVal → String
  | .vstr _ => "str"
  | .vnum d _ => d

/-- str(type(value)) as Python prints it. -/
def typeRepr : PyVal → String
  | .vstr _ => "<class \x27str\x27>"
  | .vnum d _ => "<class \x27numpy." ++ d ++ "\x27>"

/-- An expected-value constraint as the program sees it at attribute level:
either the string from the schema attribute_value field or the list from the
allowed_values table. -/
inductive PyExp where
  | estr (s : String)
  | elist (l : List PyVal)
deriving DecidableEq

def pyStrExp : PyExp → String
  | .estr s => s
  | .elist l => pyStrValList l

def pyStrOptExp : Option PyExp → String
  | none => "None"
  | some e => pyStrExp e

/-- Python truthiness of an optional expected value. -/
def truthyOptExp : Option PyExp → Bool
  | none => false
  | some (.estr s) => s ≠ ""
  | some (.elist l) => !l.isEmpty

/-- Python truthiness of an optional allowed-values list. -/
def truthyOptList : Option (List PyVal) → Bool
  | none => false
  | some l => !l.isEmpty

/-- Python membership `value in allowed` for an allowed-values list. -/
def memOptList (v : PyVal) : Option (List PyVal) → Bool
  | none => false
  | some l => l.contains v

/-- Python membership `value in allowed` when the left operand may be None
(a None value is never a member of a list of plain values). -/
def memOptOptList : Option PyVal → Option (List PyVal) → Bool
  | some v, some l => l.contains v
  | _, _ => false

/-- Python `s in e` where e is a string (substring test) or a list. -/
def strMemExp (s : String) : PyExp → Bool
  | .estr c => pyContainsSub c s
  | .elist l => l.contains (PyVal.vstr s)

/-- The program's type_map lookup with default str: the runtime tag that the
isinstance / np.dtype checks are made against. -/
def typeMapGet (t : String) : String :=
  if t = "string" then "str"
  else if t = "int" then "int32"
  else if t = "double" then "float64"
  else if t = "float" then "float32"
  else if t = "uint8" then "uint8"
  else "str"

/-- isinstance(value, type_map[t]) at the adapter level. -/
def isinst (v : PyVal) (tag : String) : Bool :=
  match v with
  | .vstr _ => tag = "str"
  | .vnum d _ => tag = d

/-- np.issubdtype(actual, np.dtype(tag)) at the adapter level: the dtype name
recorded for the variable either agrees with the expected tag or not. -/
def issubdtype (actual tag : String) : Bool := actual = tag

/-- A netCDF variable as the adapter exposes it. -/
structure NCVar where
  dtype : String
  isScalar : Bool
  data : List PyVal
  attrs : List (String × PyVal)

/-- A netCDF group: attributes, variables, subgroups. -/
inductive NCGroup where
  | mk (attrs : List (String × PyVal)) (vars : List (String × NCVar))
       (groups : List (String × NCGroup))

def NCGroup.attrs : NCGroup → List (String × PyVal)
  | .mk a _ _ => a

def NCGroup.vars : NCGroup → List (String × NCVar)
  | .mk _ v _ => v

def NCGroup.groups : NCGroup → List (String × NCGroup)
  | .mk _ _ g => g

/-- netCDF4 Variable.getValue(): the value of a scalar variable; raises for a
non-scalar variable. -/
def getValue (v : NCVar) : Except Unit PyVal :=
  if v.isScalar then
    match v.data with
    | x :: _ => .ok x
    | [] => .error ()
  else .error ()

/-- The try-block of the safe representative-value extraction
(check_variables_group lines 172-176): getValue for a scalar, the first
element for an array; an empty array is the IndexError of ncvar[0]. -/
def extractRepr (v : NCVar) : Except Unit PyVal :=
  if v.isScalar then getValue v
  else
    match v.data with
    | x :: _ => .ok x
    | [] => .error ()

/-- Safe extraction of a representative value (check_variables_group lines
169-178): any failure of the try-block is recovered as None. -/
def safeValue (v : NCVar) : Option PyVal := (extractRepr v).toOption

/-- Descend through nested subgroups by name (the loop over
path_parts[:-1]); None when an intermediate group is missing. -/
def descend : List String → NCGroup → Option NCGroup
  | [], g => some g
  | p :: ps, g =>
    match List.lookup p g.groups with
    | some g2 => descend ps g2
    | none => none

/-- Sweep placeholder substitution (lines 144-146 and 248-250): when a sweep
index is supplied and the schema name contains sweep_<n>, every occurrence of
the token <n> is replaced by the decimal index. -/
def substName (si : Option Nat) (name : String) : String :=
  match si with
  | some i =>
    if pyContainsSub name "sweep_<n>" then pyReplace name "<n>" (natStr i) else name
  | none => name

/-- Path splitting plus stripping of a leading sweep_-prefixed segment
(lines 148-151 and 252-255), applied to the already substituted name. -/
def pathParts (si : Option Nat) (name : String) : List String :=
  match si, pySplitOnSlash name with
  | some _, p :: rest => if pyStartsWith p "sweep_" then rest else p :: rest
  | _, parts => parts

/-- The allowed-values lookup of check_variables_group (lines 179-184): when
the substituted name contains sweep_ followed by the index digits, the lookup
key is the name with every occurrence of the index digits replaced by <n>;
otherwise the literal name.  Exactly one key is tried. -/
def expectedValueLookup (allowed : List (String × List PyVal)) (si : Option Nat)
    (name : String) : Option (List PyVal) :=
  match si with
  | some i =>
    if pyContainsSub name ("sweep_" ++ natStr i) then
      List.lookup (pyReplace name (natStr i) "<n>") allowed
    else
      List.lookup name allowed
  | none => List.lookup name allowed

/-- A schema entry of the Global_Attributes section. -/
structure GlobalAttr where
  name : String
  type : String
  applicability : String

/-- A declared sub-attribute of a variable schema item.  The program reads
attribute_name, attribute_datatype and attribute_value in every checker and
attribute_applicability only in check_dataset_group. -/
structure VarAttr where
  attribute_name : String
  attribute_datatype : String
  attribute_value : Option String
  attribute_applicability : String

/-- A variable schema item; type and applicability are optional JSON keys
with defaults "string" and "Optional". -/
structure VarItem where
  name : String
  type : Option String
  applicability : Option String
  attributes : List VarAttr

/-- The loaded schema document: the Global_Attributes section, the variable
sections keyed by name, and the allowed_values table. -/
structure Metadata where
  Global_Attributes : List GlobalAttr
  sections : List (String × List VarItem)
  allowed_values : List (String × List PyVal)

/-- One result row: the nine cells the program appends.  Cells that Python
fills with str(...) are some-strings (str(None) is the string "None"); cells
the program leaves as the raw value may be Python None, modelled as none. -/
structure Row where
  group : String
  name : String
  available : String
  expected_dtype : Option String
  actual_dtype : Option String
  expected_value : Option String
  actual_value : Option String
  requirement : String
  status : String
deriving DecidableEq

abbrev Cnt := Nat × Nat × Nat

/-- The per-row counter update (lines 56-61 and its three clones): pass and
fail_mandatory have their own buckets, fail_optional is tallied into
not_used_count, and a not_used row increments nothing. -/
def bump (c : Cnt) (status : String) : Cnt :=
  if status = "pass" then (c.1 + 1, c.2.1, c.2.2)
  else if status = "fail_mandatory" then (c.1, c.2.1 + 1, c.2.2)
  else if status = "fail_optional" then (c.1, c.2.1, c.2.2 + 1)
  else c

def countRows (rows : List Row) : Cnt :=
  rows.foldl (fun c r => bump c r.status) (0, 0, 0)

/-- One row of check_global_attributes (lines 33-65). -/
def cgaRow (nc : NCGroup) (md : Metadata) (attr : GlobalAttr) : Row :=
  let name := attr.name
  let dtype := typeMapGet attr.type
  let requirement := attr.applicability
  let expected_value := List.lookup name md.allowed_values
  match List.lookup name nc.attrs with
  | some value =>
    let status :=
      if !isinst value dtype then
        if pyLower requirement = "mandatory" then "fail_mandatory" else "fail_optional"
      else if truthyOptList expected_value && !memOptList value expected_value then
        if pyLower requirement = "mandatory" then "fail_mandatory" else "fail_optional"
      else "pass"
    { group := "Global_Attributes", name := name, available := "Yes",
      expected_dtype := some attr.type, actual_dtype := some (typeName value),
      expected_value := some (pyStrOptList expected_value),
      actual_value := some (pyStrVal value),
      requirement := requirement, status := status }
  | none =>
    { group := "Global_Attributes", name := name, available := "No",
      expected_dtype := some attr.type, actual_dtype := some "None",
      expected_value := some (pyStrOptList expected_value),
      actual_value := some "None",
      requirement := requirement,
      status := if pyLower requirement = "mandatory" then "fail_mandatory" else "not_used" }

/-- check_global_attributes (lines 29-67): one row per declared global
attribute, plus the section tally. -/
def checkGlobalAttributes (nc : NCGroup) (md : Metadata) : List Row × Cnt :=
  let rows := md.Global_Attributes.map (cgaRow nc md)
  (rows, countRows rows)

/-- One sub-attribute row of check_variables (lines 104-134).  The chain is
governed by the parent variable's requirement; the outcome is an exception
(TypeError) when line 124 reaches re.match with the raw list pattern taken
from the allowed_values table. -/
def cvAttrRow (md : Metadata) (rem : String → String → Bool)
    (gname name requirement : String) (ncvarOpt : Option NCVar) (a : VarAttr) :
    Except Unit Row :=
  let aname := a.attribute_name
  let adtype := typeMapGet a.attribute_datatype
  let ev : Option PyExp :=
    match a.attribute_value with
    | some s => some (.estr s)
    | none => (List.lookup aname md.allowed_values).map PyExp.elist
  match ncvarOpt.bind (fun nv => List.lookup aname nv.attrs) with
  | some aval =>
    let astatusE : Except Unit String :=
      if !isinst aval adtype then
        .ok (if pyLower requirement = "mandatory" then "fail_mandatory" else "fail_optional")
      else if truthyOptExp ev && !(match ev with | some e => strMemExp (pyStrVal aval) e | none => false) then
        match ev with
        | some (.estr p) =>
          if rem p (pyStrVal aval) then .ok "pass"
          else .ok (if pyLower requirement = "mandatory" then "fail_mandatory" else "fail_optional")
        | some (.elist _) => .error ()
        | none => .ok "pass"
      else .ok "pass"
    astatusE.map (fun astatus =>
      { group := gname ++ ":" ++ name, name := aname, available := "Yes",
        expected_dtype := some a.attribute_datatype,
        actual_dtype := some (typeName aval),
        expected_value := some (pyStrOptExp ev),
        actual_value := some (pyStrVal aval),
        requirement := requirement, status := astatus })
  | none =>
    .ok { group := gname ++ ":" ++ name, name := aname, available := "No",
          expected_dtype := some a.attribute_datatype,
          actual_dtype := some "None",
          expected_value := some (pyStrOptExp ev),
          actual_value := some "None",
          requirement := requirement,
          status := if pyLower requirement = "mandatory" then "fail_mandatory" else "not_used" }

/-- The sub-attribute loop of check_variables with exception semantics: rows
already appended are kept, the exception stops the loop. -/
def cvAttrs (md : Metadata) (rem : String → String → Bool)
    (gname name requirement : String) (ncvarOpt : Option NCVar) :
    List VarAttr → List Row × Bool
  | [] => ([], true)
  | a :: as =>
    match cvAttrRow md rem gname name requirement ncvarOpt a with
    | .error _ => ([], false)
    | .ok r =>
      let (rs, ok) := cvAttrs md rem gname name requirement ncvarOpt as
      (r :: rs, ok)

/-- One variable of check_variables (lines 73-134): the variable row (the
representative value is read with getValue at line 82, which raises for a
non-scalar variable, before the row is appended) followed by the
sub-attribute rows. -/
def cvItem (nc : NCGroup) (md : Metadata) (gname : String)
    (rem : String → String → Bool) (v : VarItem) : List Row × Bool :=
  let name := v.name
  let dtype := typeMapGet (v.type.getD "string")
  let requirement := v.applicability.getD "Optional"
  let expected_value1 := List.lookup name md.allowed_values
  match List.lookup name nc.vars with
  | some ncvar =>
    match getValue ncvar with
    | .error _ => ([], false)
    | .ok value1 =>
      let status :=
        if !issubdtype ncvar.dtype dtype then
          if pyLower requirement = "mandatory" then "fail_mandatory" else "fail_optional"
        else if truthyOptList expected_value1 && !memOptList value1 expected_value1 then
          if pyLower requirement = "mandatory" then "fail_mandatory" else "fail_optional"
        else "pass"
      let row : Row :=
        { group := gname, name := name, available := "Yes",
          expected_dtype := v.type, actual_dtype := some ncvar.dtype,
          expected_value := some (pyStrOptList expected_value1),
          actual_value := some (pyStrVal value1),
          requirement := requirement, status := status }
      let (rs, ok) := cvAttrs md rem gname name requirement (some ncvar) v.attributes
      (row :: rs, ok)
  | none =>
    let row : Row :=
      { group := gname, name := name, available := "No",
        expected_dtype := v.type, actual_dtype := some "None",
        expected_value := some (pyStrOptList expected_value1),
        actual_value := some "None",
        requirement := requirement,
        status := if pyLower requirement = "mandatory" then "fail_mandatory" else "not_used" }
    let (rs, ok) := cvAttrs md rem gname name requirement none v.attributes
    (row :: rs, ok)

/-- Iterate schema items with Python exception semantics. -/
def runItems (f : VarItem → List Row × Bool) : List VarItem → List Row × Bool
  | [] => ([], true)
  | v :: vs =>
    let (rs, ok) := f v
    if ok then
      let (rs2, ok2) := runItems f vs
      (rs ++ rs2, ok2)
    else (rs, false)

/-- check_variables (lines 70-136): the flat variable-group check; the
section tally is recorded only when no exception escapes. -/
def checkVariables (nc : NCGroup) (md : Metadata) (gname : String)
    (rem : String → String → Bool) : List Row × Option Cnt :=
  let (rows, ok) := runItems (cvItem nc md gname rem) ((List.lookup gname md.sections).getD [])
  (rows, if ok then some (countRows rows) else none)

/-- One sub-attribute row of check_variables_group (lines 206-237): the same
chain as check_variables, except the regular-expression pattern at line 227
is str() of the expected value, so a list pattern no longer raises. -/
def cvgAttrRow (md : Metadata) (rem : String → String → Bool)
    (gname name requirement : String) (ncvarOpt : Option NCVar) (a : VarAttr) : Row :=
  let aname := a.attribute_name
  let adtype := typeMapGet a.attribute_datatype
  let ev : Option PyExp :=
    match a.attribute_value with
    | some s => some (.estr s)
    | none => (List.lookup aname md.allowed_values).map PyExp.elist
  match ncvarOpt.bind (fun nv => List.lookup aname nv.attrs) with
  | some aval =>
    let astatus :=
      if !isinst aval adtype then
        if pyLower requirement = "mandatory" then "fail_mandatory" else "fail_optional"
      else if truthyOptExp ev && !(match ev with | some e => strMemExp (pyStrVal aval) e | none => false) then
        if rem (pyStrOptExp ev) (pyStrVal aval) then "pass"
        else if pyLower requirement = "mandatory" then "fail_mandatory" else "fail_optional"
      else "pass"
    { group := gname ++ ":" ++ name, name := aname, available := "Yes",
      expected_dtype := some a.attribute_datatype,
      actual_dtype := some (typeName aval),
      expected_value := some (pyStrOptExp ev),
      actual_value := some (pyStrVal aval),
      requirement := requirement, status := astatus }
  | none =>
    { group := gname ++ ":" ++ name, name := aname, available := "No",
      expected_dtype := some a.attribute_datatype,
      actual_dtype := some "None",
      expected_value := some (pyStrOptExp ev),
      actual_value := some "None",
      requirement := requirement,
      status := if pyLower requirement = "mandatory" then "fail_mandatory" else "not_used" }

/-- One schema item of check_variables_group (lines 141-237): placeholder
substitution, path resolution, safe value extraction, the one-key
allowed-values lookup, then the classification chain.  An all-stripped path
is the IndexError of path_parts[-1] on an empty list. -/
def cvgItem (ncg : NCGroup) (md : Metadata) (gname : String) (si : Option Nat)
    (rem : String → String → Bool) (v : VarItem) : List Row × Bool :=
  let name := substName si v.name
  match pathParts si name with
  | [] => ([], false)
  | p :: ps =>
    let target := descend (List.dropLast (p :: ps)) ncg
    let var_name := List.getLastD (p :: ps) ""
    let ncvarOpt := target.bind (fun g => List.lookup var_name g.vars)
    let dtype := typeMapGet (v.type.getD "string")
    let requirement := v.applicability.getD "Optional"
    let expected_value1 := expectedValueLookup md.allowed_values si name
    match ncvarOpt with
    | some ncvar =>
      let value1 := safeValue ncvar
      let status :=
        if !issubdtype ncvar.dtype dtype then
          if pyLower requirement = "mandatory" then "fail_mandatory" else "fail_optional"
        else if truthyOptList expected_value1 && !memOptOptList value1 expected_value1 then
          if pyLower requirement = "mandatory" then "fail_mandatory" else "fail_optional"
        else "pass"
      let row : Row :=
        { group := gname, name := name, available := "Yes",
          expected_dtype := v.type, actual_dtype := some ncvar.dtype,
          expected_value := some (pyStrOptList expected_value1),
          actual_value := some (pyStrOptVal value1),
          requirement := requirement, status := status }
      (row :: v.attributes.map (cvgAttrRow md rem gname name requirement (some ncvar)), true)
    | none =>
      let row : Row :=
        { group := gname, name := name, available := "No",
          expected_dtype := v.type, actual_dtype := some "None",
          expected_value := some (pyStrOptList expected_value1),
          actual_value := some "None",
          requirement := requirement,
          status := if pyLower requirement = "mandatory" then "fail_mandatory" else "not_used" }
      (row :: v.attributes.map (cvgAttrRow md rem gname name requirement none), true)

/-- check_variables_group (lines 138-239). -/
def checkVariablesGroup (ncg : NCGroup) (md : Metadata) (gname : String) (si : Option Nat)
    (rem : String → String → Bool) : List Row × Option Cnt :=
  let (rows, ok) := runItems (cvgItem ncg md gname si rem) ((List.lookup gname md.sections).getD [])
  (rows, if ok then some (countRows rows) else none)

/-- One sub-attribute row of check_dataset_group (lines 282-314): governed by
the per-attribute attribute_applicability, with not_used (not fail_optional)
as the non-mandatory failure outcome, and str(type(value)) in the
actual-dtype cell. -/
def cdgAttrRow (md : Metadata) (rem : String → String → Bool)
    (gname name : String) (ncvar : NCVar) (a : VarAttr) : Row :=
  let aname := a.attribute_name
  let adtype := typeMapGet a.attribute_datatype
  let rbs := a.attribute_applicability
  let ev : Option PyExp :=
    match a.attribute_value with
    | some s => some (.estr s)
    | none => (List.lookup aname md.allowed_values).map PyExp.elist
  match List.lookup aname ncvar.attrs with
  | some aval =>
    let astatus :=
      if !isinst aval adtype then
        if pyLower rbs = "mandatory" then "fail_mandatory" else "not_used"
      else if truthyOptExp ev && !(match ev with | some e => strMemExp (pyStrVal aval) e | none => false) then
        if rem (pyStrOptExp ev) (pyStrVal aval) then "pass"
        else if pyLower rbs = "mandatory" then "fail_mandatory" else "not_used"
      else "pass"
    { group := gname ++ ":" ++ name, name := aname, available := "Yes",
      expected_dtype := some a.attribute_datatype,
      actual_dtype := some (typeRepr aval),
      expected_value := some (pyStrOptExp ev),
      actual_value := some (pyStrVal aval),
      requirement := rbs, status := astatus }
  | none =>
    { group := gname ++ ":" ++ name, name := aname, available := "No",
      expected_dtype := some a.attribute_datatype,
      actual_dtype := some "None",
      expected_value := some (pyStrOptExp ev),
      actual_value := some "None",
      requirement := rbs,
      status := if pyLower rbs = "mandatory" then "fail_mandatory" else "not_used" }

/-- One schema item of check_dataset_group (lines 245-314): an existence-only
row for the variable itself (requirement "dataset", no counter update), then
sub-attribute rows only when the variable was found; the second component
collects the rows that feed the tally. -/
def cdgItem (ncg : NCGroup) (md : Metadata) (gname : String) (si : Option Nat)
    (rem : String → String → Bool) (v : VarItem) : List Row × List Row × Bool :=
  let name := substName si v.name
  match pathParts si name with
  | [] => ([], [], false)
  | p :: ps =>
    let target := descend (List.dropLast (p :: ps)) ncg
    let var_name := List.getLastD (p :: ps) ""
    match target.bind (fun g => List.lookup var_name g.vars) with
    | some ncvar =>
      let row : Row :=
        { group := gname, name := name, available := "Yes",
          expected_dtype := none, actual_dtype := none, expected_value := none,
          actual_value := none, requirement := "dataset", status := "pass" }
      let ars := v.attributes.map (cdgAttrRow md rem gname name ncvar)
      (row :: ars, ars, true)
    | none =>
      let row : Row :=
        { group := gname, name := name, available := "No",
          expected_dtype := none, actual_dtype := none, expected_value := none,
          actual_value := none, requirement := "dataset", status := "not_used" }
      ([row], [], true)

/-- Iterate dataset items with Python exception semantics, keeping the rows
that feed the tally separate. -/
def runItemsD (f : VarItem → List Row × List Row × Bool) :
    List VarItem → List Row × List Row × Bool
  | [] => ([], [], true)
  | v :: vs =>
    let (rs, cs, ok) := f v
    if ok then
      let (rs2, cs2, ok2) := runItemsD f vs
      (rs ++ rs2, cs ++ cs2, ok2)
    else (rs, cs, false)

/-- check_dataset_group (lines 242-316). -/
def checkDatasetGroup (ncg : NCGroup) (md : Metadata) (gname : String) (si : Option Nat)
    (rem : String → String → Bool) : List Row × Option Cnt :=
  let (rows, counted, ok) :=
    runItemsD (cdgItem ncg md gname si rem) ((List.lookup gname md.sections).getD [])
  (rows, if ok then some (countRows counted) else none)

/-- Python dict assignment section_summaries[k] = v: overwrite in place or
append. -/
def upsert : List (String × Cnt) → String → Cnt → List (String × Cnt)
  | [], k, v => [(k, v)]
  | (k2, v2) :: rest, k, v =>
    if k2 = k then (k, v) :: rest else (k2, v2) :: upsert rest k v

def hasKey (md : Metadata) (k : String) : Bool := (List.lookup k md.sections).isSome

/-- The names of the sweep_-prefixed groups of the file, in file order. -/
def sweepNames (nc : NCGroup) : List String :=
  (nc.groups.map Prod.fst).filter (fun g => pyStartsWith g "sweep_")

/-- sorted(sweep_groups): Python sorts strings lexicographically. -/
def sortedSweeps (nc : NCGroup) : List String :=
  List.insertionSort (· ≤ ·) (sweepNames nc)

/-- The repeated-group instances validate iterates (lines 614-626): mode f
enumerates every sweep_-prefixed group in sorted order, pairing each with its
enumeration position as sweep index; mode o targets the group literally named
sweep_0 with index 0; any other mode runs no sweep checks. -/
def sweepTargets (nc : NCGroup) (sopt : String) : List (String × Nat) :=
  if sopt = "f" then (sortedSweeps nc).enum.map (fun p => (p.2, p.1))
  else if sopt = "o" then [("sweep_0", 0)]
  else []

/-- The sweep loop of validate: a missing group name is the KeyError of
nc.groups[...], an exception inside a checker stops the run. -/
def sweepLoop (md : Metadata) (nc : NCGroup) (rem : String → String → Bool) :
    List (String × Nat) → List (String × Cnt) →
    List Row × List Row × List (String × Cnt) × Bool
  | [], sums => ([], [], sums, true)
  | (g, i) :: rest, sums =>
    match List.lookup g nc.groups with
    | none => ([], [], sums, false)
    | some grp =>
      match checkVariablesGroup grp md "sweep_variables" (some i) rem with
      | (vr, none) => (vr, [], sums, false)
      | (vr, some vc) =>
        let sums2 := upsert sums "sweep_variables" vc
        match checkDatasetGroup grp md "data_variables" (some i) rem with
        | (dr, none) => (vr, dr, sums2, false)
        | (dr, some dc) =>
          let sums3 := upsert sums2 "data_variables" dc
          let (vr2, dr2, sums4, ok) := sweepLoop md nc rem rest sums3
          (vr ++ vr2, dr ++ dr2, sums4, ok)

/-- The observable outcome of one run of validate: the two row lists, the
summary map, how many times the data source was closed, and whether an
exception escaped. -/
structure VOut where
  results : List Row
  results_data : List Row
  section_summaries : List (String × Cnt)
  closes : Nat
  err : Bool
deriving DecidableEq

/-- validate (lines 602-637) after the data source has been opened: the
strategy phases in call order.  nc.close() at line 633 is reached only when
no exception escapes any phase (there is no try/finally and no with-block),
so every error exit carries closes = 0. -/
def validate (md : Metadata) (nc : NCGroup) (sopt : String)
    (rem : String → String → Bool) : VOut :=
  let (r1, c1) := checkGlobalAttributes nc md
  let s1 := upsert [] "Global_Attributes" c1
  match checkVariables nc md "Global_Ancillary_variables" rem with
  | (r2, none) =>
    { results := r1 ++ r2, results_data := [], section_summaries := s1,
      closes := 0, err := true }
  | (r2, some c2) =>
    let s2 := upsert s1 "Global_Ancillary_variables" c2
    let sw :=
      if hasKey md "sweep_variables" && (sopt == "f" || sopt == "o") then
        sweepLoop md nc rem (sweepTargets nc sopt) s2
      else ([], [], s2, true)
    let r3 := sw.1
    let rd := sw.2.1
    let s3 := sw.2.2.1
    if sw.2.2.2 = false then
      { results := r1 ++ r2 ++ r3, results_data := rd, section_summaries := s3,
        closes := 0, err := true }
    else
      let p4 :=
        if hasKey md "radar_parameters" then
          match checkVariablesGroup nc md "radar_parameters" none rem with
          | (rr, none) => (rr, s3, false)
          | (rr, some rc) => (rr, upsert s3 "radar_parameters" rc, true)
        else ([], s3, true)
      let r4 := p4.1
      let s4 := p4.2.1
      if p4.2.2 = false then
        { results := r1 ++ r2 ++ r3 ++ r4, results_data := rd,
          section_summaries := s4, closes := 0, err := true }
      else
        let p5 :=
          if hasKey md "radar_calibration" then
            match checkVariablesGroup nc md "radar_calibration" none rem with
            | (rr, none) => (rr, s4, false)
            | (rr, some rc) => (rr, upsert s4 "radar_calibration" rc, true)
          else ([], s4, true)
        let r5 := p5.1
        let s5 := p5.2.1
        if p5.2.2 = false then
          { results := r1 ++ r2 ++ r3 ++ r4 ++ r5, results_data := rd,
            section_summaries := s5, closes := 0, err := true }
        else
          { results := r1 ++ r2 ++ r3 ++ r4 ++ r5, results_data := rd,
            section_summaries := s5, closes := 1, err := false }

/-- The __main__ argument handling (lines 639-649): exit code 1 on a bad
argument count or on a mode other than f or o after lowercasing; the mode
defaults to "o" when absent. -/
def cliParse (argv : List String) : Except Nat (String × String × String) :=
  match argv with
  | [_, ncf, pdff] => .ok (ncf, pdff, "o")
  | [_, ncf, pdff, m] =>
    let s := pyLower m
    if s ≠ "f" ∧ s ≠ "o" then .error 1 else .ok (ncf, pdff, s)
  | _ => .error 1

/-! Lemmas about the embedded Python string primitives. -/

/-- Joined path segments separated by slashes, used to state path facts. -/
def joinSegs : List (List Char) → List Char
  | [] => []
  | [x] => x
  | x :: y :: rest => x ++ '/' :: joinSegs (y :: rest)

/-- Slash-joined path written from Lean strings. -/
def joinSlash (p : List String) : String := String.mk (joinSegs (p.map String.data))

/-- A path segment the generic sweep path facts quantify over: no decimal
digit, no slash, no placeholder opener. -/
def goodSegChar (c : Char) : Bool := !c.isDigit && c ≠ '/' && c ≠ '<'

def goodSeg (s : String) : Bool := s.data.all goodSegChar

theorem stringDataEq {a b : String} (h : a.data = b.data) : a = b := by
  cases a; cases b; exact congrArg String.mk h

theorem isPrefixOf_append_self (a b : List Char) : a.isPrefixOf (a ++ b) = true := by
  rw [List.isPrefixOf_iff_prefix]
  exact List.prefix_append a b

theorem isPrefixOf_cons_of_ne (p0 c : Char) (ps cs : List Char) (h : c ≠ p0) :
    (p0 :: ps).isPrefixOf (c :: cs) = false := by
  simp only [List.isPrefixOf, Bool.and_eq_false_iff]
  left
  simp [beq_iff_eq]
  exact fun e => h e.symm

theorem replAuxF_skip (p0 : Char) (ps rep : List Char) :
    ∀ (s : List Char) (f : Nat), s.length ≤ f → p0 ∉ s →
      replAuxF (p0 :: ps) rep f s = s := by
  intro s
  induction s with
  | nil => intro f _ _; cases f <;> rfl
  | cons c cs ih =>
    intro f hf h
    cases f with
    | zero => simp at hf
    | succ f =>
      have hc : c ≠ p0 := by
        intro e
        exact h (e ▸ List.mem_cons_self c cs)
      have hf' : cs.length ≤ f := by
        simp only [List.length_cons] at hf
        omega
      rw [replAuxF, if_neg]
      · rw [ih f hf' (fun m => h (List.mem_cons_of_mem c m))]
      · rintro ⟨-, hp⟩
        rw [isPrefixOf_cons_of_ne p0 c ps cs hc] at hp
        exact absurd hp (by decide)

theorem replAuxF_once (p0 : Char) (ps rep : List Char) :
    ∀ (a b : List Char) (f : Nat), (a ++ (p0 :: ps) ++ b).length ≤ f →
      p0 ∉ a → p0 ∉ b →
      replAuxF (p0 :: ps) rep f (a ++ (p0 :: ps) ++ b) = a ++ rep ++ b := by
  intro a
  induction a with
  | nil =>
    intro b f hf _ hb
    simp only [List.nil_append, List.length_append, List.length_cons] at hf
    cases f with
    | zero => omega
    | succ f =>
      simp only [List.nil_append, List.cons_append]
      rw [replAuxF, if_pos]
      · have hlen : (p0 :: ps).length - 1 = ps.length := by simp
        rw [hlen, List.drop_left, replAuxF_skip p0 ps rep b f (by omega) hb]
      · refine ⟨by simp, ?_⟩
        have := isPrefixOf_append_self (p0 :: ps) b
        simp only [List.cons_append] at this
        exact this
  | cons x a' ih =>
    intro b f hf ha hb
    have hx : x ≠ p0 := by
      intro e
      exact ha (e ▸ List.mem_cons_self x a')
    have ha' : p0 ∉ a' := fun m => ha (List.mem_cons_of_mem x m)
    simp only [List.cons_append, List.length_cons] at hf ⊢
    cases f with
    | zero => omega
    | succ f =>
      rw [replAuxF, if_neg]
      · have := ih b f (by simp only [List.length_append, List.length_cons] at hf ⊢; omega) ha' hb
        simp only [List.cons_append] at this ⊢
        rw [this]
      · rintro ⟨-, hp⟩
        rw [isPrefixOf_cons_of_ne p0 x ps _ hx] at hp
        exact absurd hp (by decide)

theorem subAux_of_append (sub a b : List Char) : subAux sub (a ++ sub ++ b) = true := by
  induction a with
  | nil =>
    simp only [List.nil_append]
    cases sub with
    | nil => cases b <;> simp [subAux, List.isPrefixOf]
    | cons s0 ss =>
      have := isPrefixOf_append_self (s0 :: ss) b
      simp only [List.cons_append] at this ⊢
      simp [subAux, this]
  | cons x a' ih =>
    simp only [List.cons_append]
    rw [subAux, ih, Bool.or_true]

theorem subAux_of_not_mem (s0 : Char) (ss : List Char) :
    ∀ s, s0 ∉ s → subAux (s0 :: ss) s = false := by
  intro s
  induction s with
  | nil => intro _; simp [subAux]
  | cons c cs ih =>
    intro h
    have hc : c ≠ s0 := by
      intro e
      exact h (e ▸ List.mem_cons_self c cs)
    simp [subAux, isPrefixOf_cons_of_ne s0 c ss cs hc,
      ih (fun m => h (List.mem_cons_of_mem c m))]

theorem splitAux_ne_nil (sep : Char) : ∀ s, splitAux sep s ≠ [] := by
  intro s
  cases s with
  | nil => simp [splitAux]
  | cons c cs =>
    rw [splitAux]
    rcases h : splitAux sep cs with - | ⟨hh, t⟩
    · simp
    · split <;> (try split) <;> simp

theorem splitAux_no_sep (sep : Char) : ∀ s, sep ∉ s → splitAux sep s = [s] := by
  intro s
  induction s with
  | nil => intro _; simp [splitAux]
  | cons c cs ih =>
    intro h
    have hc : c ≠ sep := by
      intro e
      exact h (e ▸ List.mem_cons_self c cs)
    rw [splitAux, ih (fun m => h (List.mem_cons_of_mem c m))]
    simp [hc]

theorem splitAux_append (sep : Char) :
    ∀ a b, sep ∉ a → splitAux sep (a ++ sep :: b) = a :: splitAux sep b := by
  intro a
  induction a with
  | nil =>
    intro b _
    simp only [List.nil_append]
    rw [splitAux]
    rcases h : splitAux sep b with - | ⟨hh, t⟩
    · exact absurd h (splitAux_ne_nil sep b)
    · simp
  | cons x a' ih =>
    intro b ha
    have hx : x ≠ sep := by
      intro e
      exact ha (e ▸ List.mem_cons_self x a')
    have ha' : sep ∉ a' := fun m => ha (List.mem_cons_of_mem x m)
    simp only [List.cons_append]
    rw [splitAux, ih b ha']
    simp [hx]

theorem splitAux_joinSegs :
    ∀ p : List (List Char), p ≠ [] → (∀ x ∈ p, '/' ∉ x) →
      splitAux '/' (joinSegs p) = p := by
  intro p
  induction p with
  | nil => intro h _; exact absurd rfl h
  | cons x p' ih =>
    intro _ hall
    cases p' with
    | nil =>
      rw [joinSegs, splitAux_no_sep '/' x (hall x (List.mem_cons_self x []))]
    | cons y rest =>
      rw [joinSegs, splitAux_append '/' x (joinSegs (y :: rest))
        (hall x (List.mem_cons_self x _))]
      rw [ih (by simp) (fun z hz => hall z (List.mem_cons_of_mem x hz))]

theorem mem_joinSegs :
    ∀ (p : List (List Char)) (c : Char), c ∈ joinSegs p → c = '/' ∨ ∃ x ∈ p, c ∈ x := by
  intro p
  induction p with
  | nil => intro c hc; simp [joinSegs] at hc
  | cons x p' ih =>
    intro c hc
    cases p' with
    | nil =>
      rw [joinSegs] at hc
      exact Or.inr ⟨x, List.mem_cons_self x [], hc⟩
    | cons y rest =>
      rw [joinSegs] at hc
      rcases List.mem_append.mp hc with h | h
      · exact Or.inr ⟨x, List.mem_cons_self x _, h⟩
      · rcases List.mem_cons.mp h with h | h
        · exact Or.inl h
        · rcases ih c h with h2 | ⟨z, hz, hcz⟩
          · exact Or.inl h2
          · exact Or.inr ⟨z, List.mem_cons_of_mem x hz, hcz⟩

theorem digitChar_isDigit : ∀ m, m < 10 → (Nat.digitChar m).isDigit = true := by decide

theorem natDigitsF_all_digit : ∀ (f n : Nat), n ≤ f → ∀ c ∈ natDigitsF f n, c.isDigit = true := by
  intro f
  induction f with
  | zero =>
    intro n hn c hc
    have : n = 0 := Nat.le_zero.mp hn
    subst this
    rw [natDigitsF, List.mem_singleton] at hc
    subst hc
    decide
  | succ f ih =>
    intro n hn c hc
    rw [natDigitsF] at hc
    split at hc
    · rename_i h10
      rw [List.mem_singleton] at hc
      subst hc
      exact digitChar_isDigit n h10
    · rename_i h10
      rcases List.mem_append.mp hc with h | h
      · refine ih (n / 10) ?_ c h
        have : n / 10 < n := Nat.div_lt_self (by omega) (by omega)
        omega
      · rw [List.mem_singleton] at h
        subst h
        exact digitChar_isDigit (n % 10) (Nat.mod_lt n (by omega))

theorem natDigits_all_digit (n : Nat) : ∀ c ∈ natDigits n, c.isDigit = true :=
  natDigitsF_all_digit n n (Nat.le_refl n)

theorem natDigits_ne_nil (n : Nat) : natDigits n ≠ [] := by
  unfold natDigits
  cases n with
  | zero => simp [natDigitsF]
  | succ m =>
    rw [natDigitsF]
    split <;> simp

theorem not_mem_natDigits_of_not_digit (n : Nat) (c : Char) (h : c.isDigit = false) :
    c ∉ natDigits n := by
  intro hm
  have := natDigits_all_digit n c hm
  rw [h] at this
  exact absurd this (by decide)

theorem map_mk_data (p : List String) : (p.map String.data).map String.mk = p := by
  induction p with
  | nil => rfl
  | cons x p' ih => simp [ih]

theorem goodSeg_spec (s : String) (h : goodSeg s = true) :
    ∀ c ∈ s.data, c.isDigit = false ∧ c ≠ '/' ∧ c ≠ '<' := by
  intro c hc
  have h2 := (List.all_eq_true.mp h) c hc
  simp only [goodSegChar, Bool.and_eq_true, Bool.not_eq_true', decide_eq_true_eq] at h2
  exact ⟨h2.1.1, h2.1.2, h2.2⟩

theorem join_no_lt (p : List String) (hgood : ∀ s ∈ p, goodSeg s = true) :
    '<' ∉ joinSegs (p.map String.data) := by
  intro hm
  rcases mem_joinSegs (p.map String.data) '<' hm with h | ⟨x, hx, hcx⟩
  · exact absurd h (by decide)
  · rcases List.mem_map.mp hx with ⟨s, hs, rfl⟩
    exact absurd rfl (goodSeg_spec s (hgood s hs) '<' hcx).2.2

theorem join_no_digit (p : List String) (hgood : ∀ s ∈ p, goodSeg s = true) :
    ∀ c ∈ joinSegs (p.map String.data), c.isDigit = false := by
  intro c hm
  rcases mem_joinSegs (p.map String.data) c hm with h | ⟨x, hx, hcx⟩
  · subst h; decide
  · rcases List.mem_map.mp hx with ⟨s, hs, rfl⟩
    exact (goodSeg_spec s (hgood s hs) c hcx).1

theorem sweep_data_no_digit : ∀ c ∈ "sweep_".data, c.isDigit = false := by decide

/-- Replacing the placeholder by the index digits in a generic sweep name. -/
theorem replace_n_generic (i : Nat) (J : List Char) (hJlt : '<' ∉ J) :
    replAuxF "<n>".data (natDigits i)
        ("sweep_".data ++ "<n>".data ++ ('/' :: J)).length
        ("sweep_".data ++ "<n>".data ++ ('/' :: J)) =
      "sweep_".data ++ natDigits i ++ ('/' :: J) := by
  have h1 : '<' ∉ "sweep_".data := by decide
  have h2 : '<' ∉ '/' :: J := by
    intro h
    rcases List.mem_cons.mp h with h | h
    · exact absurd h (by decide)
    · exact hJlt h
  exact replAuxF_once '<' ['n', '>'] (natDigits i) "sweep_".data ('/' :: J) _
    (Nat.le_refl _) h1 h2

/-- Replacing the index digits by the placeholder, the de-indexing step of the
allowed-values lookup. -/
theorem replace_digits_generic (i : Nat) (J : List Char)
    (hJd : ∀ c ∈ J, c.isDigit = false) :
    replAuxF (natDigits i) "<n>".data
        ("sweep_".data ++ natDigits i ++ ('/' :: J)).length
        ("sweep_".data ++ natDigits i ++ ('/' :: J)) =
      "sweep_".data ++ "<n>".data ++ ('/' :: J) := by
  obtain ⟨d0, ds, hD⟩ : ∃ d0 ds, natDigits i = d0 :: ds := by
    cases h : natDigits i with
    | nil => exact absurd h (natDigits_ne_nil i)
    | cons a b => exact ⟨a, b, rfl⟩
  have hd0 : d0.isDigit = true := natDigits_all_digit i d0 (by rw [hD]; exact List.mem_cons_self d0 ds)
  have h1 : d0 ∉ "sweep_".data := by
    intro h
    rw [sweep_data_no_digit d0 h] at hd0
    exact absurd hd0 (by decide)
  have h2 : d0 ∉ '/' :: J := by
    intro h
    rcases List.mem_cons.mp h with h | h
    · subst h; exact absurd hd0 (by decide)
    · rw [hJd d0 h] at hd0
      exact absurd hd0 (by decide)
  rw [hD]
  exact replAuxF_once d0 ds "<n>".data "sweep_".data ('/' :: J) _
    (Nat.le_refl _) h1 h2

theorem indexed_name_data (i : Nat) (p : List String) :
    ("sweep_" ++ natStr i ++ "/" ++ joinSlash p).data =
      "sweep_".data ++ natDigits i ++ ('/' :: joinSegs (p.map String.data)) := by
  simp [String.data_append, natStr, joinSlash, List.append_assoc]

theorem generic_name_data (p : List String) :
    ("sweep_<n>/" ++ joinSlash p).data =
      "sweep_".data ++ "<n>".data ++ ('/' :: joinSegs (p.map String.data)) := by
  have h : ("sweep_<n>/").data = "sweep_".data ++ "<n>".data ++ ['/'] := by decide
  simp [String.data_append, joinSlash, h, List.append_assoc]

/-- Sweep substitution on a generic placeholder path: the placeholder is
replaced by the index, for every index. -/
theorem substName_generic (i : Nat) (p : List String)
    (hgood : ∀ s ∈ p, goodSeg s = true) :
    substName (some i) ("sweep_<n>/" ++ joinSlash p) =
      "sweep_" ++ natStr i ++ "/" ++ joinSlash p := by
  have hdata := generic_name_data p
  have hcontains : pyContainsSub ("sweep_<n>/" ++ joinSlash p) "sweep_<n>" = true := by
    unfold pyContainsSub
    rw [hdata]
    have h1 : "sweep_".data ++ "<n>".data ++ ('/' :: joinSegs (p.map String.data)) =
        [] ++ "sweep_<n>".data ++ ('/' :: joinSegs (p.map String.data)) := by
      have : "sweep_<n>".data = "sweep_".data ++ "<n>".data := by decide
      simp [this]
    rw [h1]
    exact subAux_of_append "sweep_<n>".data [] ('/' :: joinSegs (p.map String.data))
  show (if pyContainsSub ("sweep_<n>/" ++ joinSlash p) "sweep_<n>" = true then
      pyReplace ("sweep_<n>/" ++ joinSlash p) "<n>" (natStr i)
    else "sweep_<n>/" ++ joinSlash p) = _
  rw [if_pos hcontains]
  apply stringDataEq
  show replAuxF "<n>".data (natStr i).data ("sweep_<n>/" ++ joinSlash p).data.length
    ("sweep_<n>/" ++ joinSlash p).data = _
  rw [hdata, indexed_name_data]
  exact replace_n_generic i (joinSegs (p.map String.data)) (join_no_lt p hgood)

/-- Path resolution on an index-substituted generic sweep name: the leading
sweep_-prefixed segment is stripped and the remaining slash-separated
segments come back intact, for every index. -/
theorem pathParts_generic (i : Nat) (p : List String) (hp : p ≠ [])
    (hgood : ∀ s ∈ p, goodSeg s = true) :
    pathParts (some i) ("sweep_" ++ natStr i ++ "/" ++ joinSlash p) = p := by
  have hsplit : pySplitOnSlash ("sweep_" ++ natStr i ++ "/" ++ joinSlash p) =
      String.mk ("sweep_".data ++ natDigits i) :: p := by
    unfold pySplitOnSlash
    rw [indexed_name_data]
    have hnos : '/' ∉ "sweep_".data ++ natDigits i := by
      intro h
      rcases List.mem_append.mp h with h | h
      · exact absurd h (by decide)
      · have := natDigits_all_digit i '/' h
        exact absurd this (by decide)
    rw [splitAux_append '/' ("sweep_".data ++ natDigits i) (joinSegs (p.map String.data)) hnos]
    rw [splitAux_joinSegs (p.map String.data) (by simpa using hp)
      (fun x hx => by
        rcases List.mem_map.mp hx with ⟨s, hs, rfl⟩
        intro hc
        exact absurd rfl (goodSeg_spec s (hgood s hs) '/' hc).2.1)]
    rw [List.map_cons, map_mk_data]
  have hstart : pyStartsWith (String.mk ("sweep_".data ++ natDigits i)) "sweep_" = true := by
    unfold pyStartsWith
    exact isPrefixOf_append_self "sweep_".data (natDigits i)
  unfold pathParts
  rw [hsplit]
  show (if pyStartsWith (String.mk ("sweep_".data ++ natDigits i)) "sweep_" = true
      then p else String.mk ("sweep_".data ++ natDigits i) :: p) = p
  rw [if_pos hstart]

/-- The allowed-values lookup on an index-substituted generic sweep name uses
exactly the de-indexed generic key, for every index and every table. -/
theorem lookup_generic (allowed : List (String × List PyVal)) (i : Nat) (p : List String)
    (hgood : ∀ s ∈ p, goodSeg s = true) :
    expectedValueLookup allowed (some i) ("sweep_" ++ natStr i ++ "/" ++ joinSlash p) =
      List.lookup ("sweep_<n>/" ++ joinSlash p) allowed := by
  have hdata := indexed_name_data i p
  have hcontains : pyContainsSub ("sweep_" ++ natStr i ++ "/" ++ joinSlash p)
      ("sweep_" ++ natStr i) = true := by
    unfold pyContainsSub
    rw [hdata]
    have h1 : ("sweep_" ++ natStr i).data = "sweep_".data ++ natDigits i := by
      simp [String.data_append, natStr]
    have h2 : "sweep_".data ++ natDigits i ++ ('/' :: joinSegs (p.map String.data)) =
        [] ++ ("sweep_" ++ natStr i).data ++ ('/' :: joinSegs (p.map String.data)) := by
      simp [h1]
    rw [h2]
    exact subAux_of_append ("sweep_" ++ natStr i).data [] ('/' :: joinSegs (p.map String.data))
  show (if pyContainsSub ("sweep_" ++ natStr i ++ "/" ++ joinSlash p) ("sweep_" ++ natStr i) = true then
      List.lookup (pyReplace ("sweep_" ++ natStr i ++ "/" ++ joinSlash p) (natStr i) "<n>") allowed
    else List.lookup ("sweep_" ++ natStr i ++ "/" ++ joinSlash p) allowed) = _
  rw [if_pos hcontains]
  have hkey : pyReplace ("sweep_" ++ natStr i ++ "/" ++ joinSlash p) (natStr i) "<n>" =
      "sweep_<n>/" ++ joinSlash p := by
    apply stringDataEq
    show replAuxF (natStr i).data "<n>".data
      ("sweep_" ++ natStr i ++ "/" ++ joinSlash p).data.length
      ("sweep_" ++ natStr i ++ "/" ++ joinSlash p).data = _
    rw [hdata, generic_name_data]
    exact replace_digits_generic i (joinSegs (p.map String.data)) (join_no_digit p hgood)
  rw [hkey]

/-! Counting lemmas for the section tallies. -/

theorem bump_foldl (rows : List Row) : ∀ c : Cnt,
    rows.foldl (fun c r => bump c r.status) c =
      (c.1 + rows.countP (fun r => r.status == "pass"),
       c.2.1 + rows.countP (fun r => r.status == "fail_mandatory"),
       c.2.2 + rows.countP (fun r => r.status == "fail_optional")) := by
  induction rows with
  | nil => intro c; simp
  | cons a rows ih =>
    intro c
    rw [List.foldl_cons, ih]
    unfold bump
    by_cases h1 : a.status = "pass"
    · simp [List.countP_cons, h1, Prod.ext_iff]; omega
    · by_cases h2 : a.status = "fail_mandatory"
      · simp [List.countP_cons, h1, h2, Prod.ext_iff]; omega
      · by_cases h3 : a.status = "fail_optional"
        · simp [List.countP_cons, h1, h2, h3, Prod.ext_iff]; omega
        · simp [List.countP_cons, h1, h2, h3]

theorem countRows_eq (rows : List Row) :
    countRows rows =
      (rows.countP (fun r => r.status == "pass"),
       rows.countP (fun r => r.status == "fail_mandatory"),
       rows.countP (fun r => r.status == "fail_optional")) := by
  unfold countRows
  rw [bump_foldl]
  simp

theorem countP_three (rows : List Row) :
    rows.countP (fun r => r.status == "pass") +
      rows.countP (fun r => r.status == "fail_mandatory") +
      rows.countP (fun r => r.status == "fail_optional") =
    rows.countP (fun r =>
      r.status == "pass" || r.status == "fail_mandatory" || r.status == "fail_optional") := by
  induction rows with
  | nil => simp
  | cons a rows ih =>
    simp only [List.countP_cons]
    by_cases h1 : a.status = "pass"
    · simp [h1]; omega
    · by_cases h2 : a.status = "fail_mandatory"
      · simp [h1, h2]; omega
      · by_cases h3 : a.status = "fail_optional"
        · simp [h1, h2, h3]; omega
        · simp [h1, h2, h3]; omega

theorem countRows_sum (rows : List Row) :
    (countRows rows).1 + (countRows rows).2.1 + (countRows rows).2.2 =
      rows.countP (fun r =>
        r.status == "pass" || r.status == "fail_mandatory" || r.status == "fail_optional") := by
  rw [countRows_eq]
  exact countP_three rows

/-! Availability-driven outcomes (the shared classification table head). -/

/-- The availability rows property: a row recorded as unavailable whose
governing requirement lowercases to mandatory is a fail_mandatory row, and
one whose requirement lowercases to optional is a not_used row. -/
def rowAvailOk (r : Row) : Prop :=
  (r.available = "No" → pyLower r.requirement = "mandatory" → r.status = "fail_mandatory") ∧
  (r.available = "No" → pyLower r.requirement = "optional" → r.status = "not_used")

theorem rowAvailOk_yes (r : Row) (h : r.available = "Yes") : rowAvailOk r := by
  constructor <;> intro h1 <;> rw [h] at h1 <;> exact absurd h1 (by decide)

theorem rowAvailOk_of_status (r : Row)
    (h : r.status = if pyLower r.requirement = "mandatory" then "fail_mandatory" else "not_used") :
    rowAvailOk r := by
  constructor
  · intro _ h2
    rw [h, if_pos h2]
  · intro _ h2
    rw [h, if_neg]
    rw [h2]
    decide

theorem rowAvailOk_req (r : Row)
    (h1 : pyLower r.requirement ≠ "mandatory") (h2 : pyLower r.requirement ≠ "optional") :
    rowAvailOk r := by
  constructor
  · intro _ hm
    exact absurd hm h1
  · intro _ ho
    exact absurd ho h2

theorem cgaRow_availOk (nc : NCGroup) (md : Metadata) (attr : GlobalAttr) :
    rowAvailOk (cgaRow nc md attr) := by
  simp only [cgaRow]
  cases h : List.lookup attr.name nc.attrs
  · exact rowAvailOk_of_status _ rfl
  · exact rowAvailOk_yes _ rfl

theorem exceptMapRowOk {e : Except Unit String} {f : String → Row} {r : Row}
    (h : e.map f = .ok r) : ∃ s, e = .ok s ∧ r = f s := by
  cases e with
  | error u => simp [Except.map] at h
  | ok s =>
    simp only [Except.map, Except.ok.injEq] at h
    exact ⟨s, rfl, h.symm⟩

theorem cvAttrRow_availOk (md : Metadata) (rem : String → String → Bool)
    (g n req : String) (o : Option NCVar) (a : VarAttr) (r : Row)
    (h : cvAttrRow md rem g n req o a = .ok r) : rowAvailOk r := by
  simp only [cvAttrRow] at h
  cases hl : o.bind (fun nv => List.lookup a.attribute_name nv.attrs)
  · rw [hl] at h
    simp only [Except.ok.injEq] at h
    rw [← h]
    exact rowAvailOk_of_status _ rfl
  · rw [hl] at h
    obtain ⟨s, -, rfl⟩ := exceptMapRowOk h
    exact rowAvailOk_yes _ rfl

theorem cvAttrs_availOk (md : Metadata) (rem : String → String → Bool)
    (g n req : String) (o : Option NCVar) :
    ∀ as r, r ∈ (cvAttrs md rem g n req o as).1 → rowAvailOk r := by
  intro as
  induction as with
  | nil => intro r hr; simp [cvAttrs] at hr
  | cons a as ih =>
    intro r hr
    simp only [cvAttrs] at hr
    split at hr
    · simp at hr
    · rename_i row heq
      rcases List.mem_cons.mp hr with rfl | hr
      · exact cvAttrRow_availOk md rem g n req o a r heq
      · exact ih r hr

theorem cvItem_availOk (nc : NCGroup) (md : Metadata) (gname : String)
    (rem : String → String → Bool) (v : VarItem) :
    ∀ r ∈ (cvItem nc md gname rem v).1, rowAvailOk r := by
  intro r hr
  simp only [cvItem] at hr
  split at hr
  · split at hr
    · simp at hr
    · rcases List.mem_cons.mp hr with rfl | hr
      · exact rowAvailOk_yes _ rfl
      · exact cvAttrs_availOk md rem gname v.name _ _ v.attributes r hr
  · rcases List.mem_cons.mp hr with rfl | hr
    · exact rowAvailOk_of_status _ rfl
    · exact cvAttrs_availOk md rem gname v.name _ none v.attributes r hr

theorem runItems_mem {f : VarItem → List Row × Bool} {P : Row → Prop}
    (hf : ∀ v r, r ∈ (f v).1 → P r) : ∀ vs r, r ∈ (runItems f vs).1 → P r := by
  intro vs
  induction vs with
  | nil => intro r hr; simp [runItems] at hr
  | cons v vs ih =>
    intro r hr
    simp only [runItems] at hr
    split at hr
    · rcases List.mem_append.mp hr with hr | hr
      · exact hf v r hr
      · exact ih r hr
    · exact hf v r hr

theorem cvgAttrRow_availOk (md : Metadata) (rem : String → String → Bool)
    (g n req : String) (o : Option NCVar) (a : VarAttr) :
    rowAvailOk (cvgAttrRow md rem g n req o a) := by
  simp only [cvgAttrRow]
  cases hl : o.bind (fun nv => List.lookup a.attribute_name nv.attrs)
  · exact rowAvailOk_of_status _ rfl
  · exact rowAvailOk_yes _ rfl

theorem cvgItem_availOk (ncg : NCGroup) (md : Metadata) (gname : String) (si : Option Nat)
    (rem : String → String → Bool) (v : VarItem) :
    ∀ r ∈ (cvgItem ncg md gname si rem v).1, rowAvailOk r := by
  intro r hr
  simp only [cvgItem] at hr
  split at hr
  · simp at hr
  · split at hr
    · rcases List.mem_cons.mp hr with rfl | hr
      · exact rowAvailOk_yes _ rfl
      · rcases List.mem_map.mp hr with ⟨a, -, rfl⟩
        exact cvgAttrRow_availOk md rem gname _ _ _ a
    · rcases List.mem_cons.mp hr with rfl | hr
      · exact rowAvailOk_of_status _ rfl
      · rcases List.mem_map.mp hr with ⟨a, -, rfl⟩
        exact cvgAttrRow_availOk md rem gname _ _ none a

theorem cdgAttrRow_availOk (md : Metadata) (rem : String → String → Bool)
    (g n : String) (ncvar : NCVar) (a : VarAttr) :
    rowAvailOk (cdgAttrRow md rem g n ncvar a) := by
  simp only [cdgAttrRow]
  cases hl : List.lookup a.attribute_name ncvar.attrs
  · exact rowAvailOk_of_status _ rfl
  · exact rowAvailOk_yes _ rfl

theorem cdgItem_availOk (ncg : NCGroup) (md : Metadata) (gname : String) (si : Option Nat)
    (rem : String → String → Bool) (v : VarItem) :
    ∀ r ∈ (cdgItem ncg md gname si rem v).1, rowAvailOk r := by
  intro r hr
  simp only [cdgItem] at hr
  split at hr
  · simp at hr
  · split at hr
    · rcases List.mem_cons.mp hr with rfl | hr
      · exact rowAvailOk_req _ (show pyLower "dataset" ≠ "mandatory" by decide)
          (show pyLower "dataset" ≠ "optional" by decide)
      · rcases List.mem_map.mp hr with ⟨a, -, rfl⟩
        exact cdgAttrRow_availOk md rem gname _ _ a
    · rcases List.mem_singleton.mp hr with rfl
      exact rowAvailOk_req _ (show pyLower "dataset" ≠ "mandatory" by decide)
        (show pyLower "dataset" ≠ "optional" by decide)

theorem runItemsD_mem {f : VarItem → List Row × List Row × Bool} {P : Row → Prop}
    (hf : ∀ v r, r ∈ (f v).1 → P r) : ∀ vs r, r ∈ (runItemsD f vs).1 → P r := by
  intro vs
  induction vs with
  | nil => intro r hr; simp [runItemsD] at hr
  | cons v vs ih =>
    intro r hr
    simp only [runItemsD] at hr
    split at hr
    · rcases List.mem_append.mp hr with hr | hr
      · exact hf v r hr
      · exact ih r hr
    · exact hf v r hr

theorem runItemsD_mem2 {f : VarItem → List Row × List Row × Bool} {P : Row → Prop}
    (hf : ∀ v r, r ∈ (f v).2.1 → P r) : ∀ vs r, r ∈ (runItemsD f vs).2.1 → P r := by
  intro vs
  induction vs with
  | nil => intro r hr; simp [runItemsD] at hr
  | cons v vs ih =>
    intro r hr
    simp only [runItemsD] at hr
    split at hr
    · rcases List.mem_append.mp hr with hr | hr
      · exact hf v r hr
      · exact ih r hr
    · exact hf v r hr

theorem cdgAttrRow_dtype (md : Metadata) (rem : String → String → Bool)
    (g n : String) (ncvar : NCVar) (a : VarAttr) :
    (cdgAttrRow md rem g n ncvar a).expected_dtype = some a.attribute_datatype := by
  simp only [cdgAttrRow]
  split <;> rfl

theorem cdgAttrRow_status_ne_fo (md : Metadata) (rem : String → String → Bool)
    (g n : String) (ncvar : NCVar) (a : VarAttr) :
    (cdgAttrRow md rem g n ncvar a).status ≠ "fail_optional" := by
  simp only [cdgAttrRow]
  split
  · show (if _ then _ else _) ≠ _
    split_ifs <;> decide
  · show (if _ then _ else _) ≠ _
    split_ifs <;> decide

theorem cdgItem_counted_mem (ncg : NCGroup) (md : Metadata) (gname : String) (si : Option Nat)
    (rem : String → String → Bool) (v : VarItem) :
    ∀ r ∈ (cdgItem ncg md gname si rem v).2.1,
      ∃ ncvar a, r = cdgAttrRow md rem gname (substName si v.name) ncvar a := by
  intro r hr
  simp only [cdgItem] at hr
  split at hr
  · simp at hr
  · split at hr
    · rcases List.mem_map.mp hr with ⟨a, -, rfl⟩
      rename_i ncvar heq
      exact ⟨ncvar, a, rfl⟩
    · simp at hr

theorem cdgItem_countP (ncg : NCGroup) (md : Metadata) (gname : String) (si : Option Nat)
    (rem : String → String → Bool) (v : VarItem) (p : String → Bool) :
    ((cdgItem ncg md gname si rem v).1.countP
        (fun r => r.expected_dtype.isSome && p r.status)) =
      ((cdgItem ncg md gname si rem v).2.1.countP (fun r => p r.status)) := by
  simp only [cdgItem]
  split
  · rfl
  · split
    · simp only [List.countP_cons, Option.isSome_none, Bool.false_and, if_false]
      rw [List.countP_map, List.countP_map]
      rename_i ncvar heq
      have hfun : ((fun r => r.expected_dtype.isSome && p r.status) ∘
          cdgAttrRow md rem gname (substName si v.name) ncvar) =
          ((fun r => p r.status) ∘ cdgAttrRow md rem gname (substName si v.name) ncvar) := by
        funext a
        simp [Function.comp, cdgAttrRow_dtype]
      rw [hfun]
      simp
    · simp [List.countP_cons]

theorem runItemsD_countP {f : VarItem → List Row × List Row × Bool}
    {p1 p2 : Row → Bool}
    (hf : ∀ v, (f v).1.countP p1 = (f v).2.1.countP p2) :
    ∀ vs, (runItemsD f vs).1.countP p1 = (runItemsD f vs).2.1.countP p2 := by
  intro vs
  induction vs with
  | nil => simp [runItemsD]
  | cons v vs ih =>
    simp only [runItemsD]
    split
    · simp only [List.countP_append]
      rw [hf v, ih]
    · exact hf v

theorem checkDatasetGroup_snd (ncg : NCGroup) (md : Metadata) (gname : String)
    (si : Option Nat) (rem : String → String → Bool) (c : Cnt)
    (h : (checkDatasetGroup ncg md gname si rem).2 = some c) :
    c = countRows
      ((runItemsD (cdgItem ncg md gname si rem)
        ((List.lookup gname md.sections).getD [])).2.1) := by
  simp only [checkDatasetGroup] at h
  split at h
  · exact (Option.some.injEq _ _ ▸ h).symm
  · exact absurd h (by simp)

theorem checkDatasetGroup_rows (ncg : NCGroup) (md : Metadata) (gname : String)
    (si : Option Nat) (rem : String → String → Bool) :
    (checkDatasetGroup ncg md gname si rem).1 =
      (runItemsD (cdgItem ncg md gname si rem)
        ((List.lookup gname md.sections).getD [])).1 := rfl

theorem checkVariables_snd (nc : NCGroup) (md : Metadata) (gname : String)
    (rem : String → String → Bool) (c : Cnt)
    (h : (checkVariables nc md gname rem).2 = some c) :
    c = countRows (checkVariables nc md gname rem).1 := by
  simp only [checkVariables] at h ⊢
  split at h
  · exact (Option.some.injEq _ _ ▸ h).symm
  · exact absurd h (by simp)

theorem checkVariablesGroup_snd (ncg : NCGroup) (md : Metadata) (gname : String)
    (si : Option Nat) (rem : String → String → Bool) (c : Cnt)
    (h : (checkVariablesGroup ncg md gname si rem).2 = some c) :
    c = countRows (checkVariablesGroup ncg md gname si rem).1 := by
  simp only [checkVariablesGroup] at h ⊢
  split at h
  · exact (Option.some.injEq _ _ ▸ h).symm
  · exact absurd h (by simp)

/-! The claim theorems. -/

/-- C1: in each of the four checks, every emitted row whose availability cell
is "No" and whose governing applicability (the requirement recorded on the
row) lowercases to mandatory has outcome fail_mandatory, and every such row
whose governing applicability lowercases to optional has outcome not_used,
never fail_mandatory. -/
theorem c1_unavailable_outcome :
    (∀ (nc : NCGroup) (md : Metadata) (r : Row),
        r ∈ (checkGlobalAttributes nc md).1 → rowAvailOk r) ∧
    (∀ (nc : NCGroup) (md : Metadata) (gname : String) (rem : String → String → Bool) (r : Row),
        r ∈ (checkVariables nc md gname rem).1 → rowAvailOk r) ∧
    (∀ (ncg : NCGroup) (md : Metadata) (gname : String) (si : Option Nat)
        (rem : String → String → Bool) (r : Row),
        r ∈ (checkVariablesGroup ncg md gname si rem).1 → rowAvailOk r) ∧
    (∀ (ncg : NCGroup) (md : Metadata) (gname : String) (si : Option Nat)
        (rem : String → String → Bool) (r : Row),
        r ∈ (checkDatasetGroup ncg md gname si rem).1 → rowAvailOk r) := by
  refine ⟨?_, ?_, ?_, ?_⟩
  · intro nc md r hr
    simp only [checkGlobalAttributes] at hr
    rcases List.mem_map.mp hr with ⟨attr, -, rfl⟩
    exact cgaRow_availOk nc md attr
  · intro nc md gname rem r hr
    have hr2 : r ∈ (runItems (cvItem nc md gname rem)
        ((List.lookup gname md.sections).getD [])).1 := hr
    exact runItems_mem (fun v r hr => cvItem_availOk nc md gname rem v r hr) _ r hr2
  · intro ncg md gname si rem r hr
    have hr2 : r ∈ (runItems (cvgItem ncg md gname si rem)
        ((List.lookup gname md.sections).getD [])).1 := hr
    exact runItems_mem (fun v r hr => cvgItem_availOk ncg md gname si rem v r hr) _ r hr2
  · intro ncg md gname si rem r hr
    have hr2 : r ∈ (runItemsD (cdgItem ncg md gname si rem)
        ((List.lookup gname md.sections).getD [])).1 := hr
    exact runItemsD_mem (fun v r hr => cdgItem_availOk ncg md gname si rem v r hr) _ r hr2

/-- Witness for C1 at a concrete input: a mandatory global attribute missing
from the file yields a fail_mandatory row. -/
theorem c1_unavailable_outcome_witness :
    Row.status (⟨"Global_Attributes", "title", "No", some "string", some "None",
      some "None", some "None", "Mandatory", "fail_mandatory"⟩ : Row) = "fail_mandatory" :=
  (c1_unavailable_outcome.1 (NCGroup.mk [] [] [])
    ⟨[⟨"title", "string", "Mandatory"⟩], [], []⟩ _ (by decide)).1 (by decide) (by decide)

/-- C2 counterexample: in the dataset-existence check a variable that IS
present in the file gets outcome "pass" on its own row, not not_used, so the
claim that the row is not_used regardless of presence and never pass is false
on the code (lines 271-277 set status = "pass" unless unavailable). -/
theorem c2_counterexample :
    (checkDatasetGroup
        (NCGroup.mk [] [("DBZH", ⟨"float64", true, [PyVal.vnum "float64" "1.0"], []⟩)] [])
        ⟨[], [("data_variables", [⟨"DBZH", none, none, []⟩])], []⟩
        "data_variables" (some 0) (fun _ _ => false)).1 =
      [{ group := "data_variables", name := "DBZH", available := "Yes",
         expected_dtype := none, actual_dtype := none, expected_value := none,
         actual_value := none, requirement := "dataset", status := "pass" }] := by decide

/-- C2 amended: in the dataset-existence check the variable's own result row
(the row whose value cells are left as Python None) has outcome pass when
the variable is present and not_used when it is absent; it never has outcome
fail_mandatory or fail_optional. -/
theorem c2_dataset_existence_amended :
    ∀ (ncg : NCGroup) (md : Metadata) (gname : String) (si : Option Nat)
      (rem : String → String → Bool) (r : Row),
      r ∈ (checkDatasetGroup ncg md gname si rem).1 → r.expected_dtype = none →
        (r.status = "pass" ∨ r.status = "not_used") ∧
        (r.available = "Yes" → r.status = "pass") ∧
        (r.available = "No" → r.status = "not_used") := by
  intro ncg md gname si rem r hr
  have hr2 : r ∈ (runItemsD (cdgItem ncg md gname si rem)
      ((List.lookup gname md.sections).getD [])).1 := hr
  refine @runItemsD_mem _
    (fun r => r.expected_dtype = none →
      (r.status = "pass" ∨ r.status = "not_used") ∧
      (r.available = "Yes" → r.status = "pass") ∧
      (r.available = "No" → r.status = "not_used")) ?_ _ r hr2
  intro v r hr
  simp only [cdgItem] at hr
  split at hr
  · simp at hr
  · split at hr
    · rcases List.mem_cons.mp hr with rfl | hr
      · intro _
        exact ⟨Or.inl rfl, fun _ => rfl,
          fun h => absurd h (show ("Yes" : String) ≠ "No" by decide)⟩
      · rcases List.mem_map.mp hr with ⟨a, -, rfl⟩
        intro hnone
        rw [cdgAttrRow_dtype] at hnone
        exact absurd hnone (by simp)
    · rcases List.mem_singleton.mp hr with rfl
      intro _
      exact ⟨Or.inr rfl, fun h => absurd h (show ("No" : String) ≠ "Yes" by decide),
        fun _ => rfl⟩

/-- Witness for the amended C2 at a concrete input: an absent data variable
gets a not_used existence row. -/
theorem c2_dataset_existence_amended_witness :
    Row.status (⟨"data_variables", "missing", "No", none, none, none, none,
      "dataset", "not_used"⟩ : Row) = "not_used" :=
  ((c2_dataset_existence_amended (NCGroup.mk [] [] [])
      ⟨[], [("data_variables", [⟨"missing", none, none, []⟩])], []⟩
      "data_variables" (some 0) (fun _ _ => false) _ (by decide) (by decide)).2.2 (by decide))

/-- C3 counterexample: one declared optional global attribute absent from the
file produces one result row with outcome not_used, yet the recorded section
summary is (0, 0, 0): pass_count + fail_mandatory_count + not_used_count = 0
while the check emitted 1 row, so the claimed sum law is false on the code
(the counting blocks skip not_used rows; lines 56-61). -/
theorem c3_counterexample :
    ((checkGlobalAttributes (NCGroup.mk [] [] [])
        ⟨[⟨"comment", "string", "Optional"⟩], [], []⟩).2.1 +
      (checkGlobalAttributes (NCGroup.mk [] [] [])
        ⟨[⟨"comment", "string", "Optional"⟩], [], []⟩).2.2.1 +
      (checkGlobalAttributes (NCGroup.mk [] [] [])
        ⟨[⟨"comment", "string", "Optional"⟩], [], []⟩).2.2.2 = 0) ∧
    (checkGlobalAttributes (NCGroup.mk [] [] [])
        ⟨[⟨"comment", "string", "Optional"⟩], [], []⟩).1.length = 1 := by decide

/-- C3 amended: for every section, pass_count + fail_mandatory_count +
not_used_count equals the number of rows that checker emitted for the section
whose outcome is pass, fail_mandatory or fail_optional (not_used rows are not
counted; the not_used_count bucket in fact tallies fail_optional rows); in
the dataset-existence check only sub-attribute rows (the rows with a present
expected-dtype cell) are counted, and the summary is recorded only when the
checker completes without an exception. -/
theorem c3_sum_law_amended :
    (∀ (nc : NCGroup) (md : Metadata),
      (checkGlobalAttributes nc md).2.1 + (checkGlobalAttributes nc md).2.2.1 +
          (checkGlobalAttributes nc md).2.2.2 =
        (checkGlobalAttributes nc md).1.countP
          (fun r => r.status == "pass" || r.status == "fail_mandatory" ||
            r.status == "fail_optional")) ∧
    (∀ (nc : NCGroup) (md : Metadata) (gname : String) (rem : String → String → Bool) (c : Cnt),
      (checkVariables nc md gname rem).2 = some c →
        c.1 + c.2.1 + c.2.2 =
          (checkVariables nc md gname rem).1.countP
            (fun r => r.status == "pass" || r.status == "fail_mandatory" ||
              r.status == "fail_optional")) ∧
    (∀ (ncg : NCGroup) (md : Metadata) (gname : String) (si : Option Nat)
        (rem : String → String → Bool) (c : Cnt),
      (checkVariablesGroup ncg md gname si rem).2 = some c →
        c.1 + c.2.1 + c.2.2 =
          (checkVariablesGroup ncg md gname si rem).1.countP
            (fun r => r.status == "pass" || r.status == "fail_mandatory" ||
              r.status == "fail_optional")) ∧
    (∀ (ncg : NCGroup) (md : Metadata) (gname : String) (si : Option Nat)
        (rem : String → String → Bool) (c : Cnt),
      (checkDatasetGroup ncg md gname si rem).2 = some c →
        c.1 + c.2.1 + c.2.2 =
          (checkDatasetGroup ncg md gname si rem).1.countP
            (fun r => r.expected_dtype.isSome &&
              (r.status == "pass" || r.status == "fail_mandatory" ||
                r.status == "fail_optional"))) := by
  refine ⟨?_, ?_, ?_, ?_⟩
  · intro nc md
    exact countRows_sum ((checkGlobalAttributes nc md).1)
  · intro nc md gname rem c h
    rw [checkVariables_snd nc md gname rem c h]
    exact countRows_sum _
  · intro ncg md gname si rem c h
    rw [checkVariablesGroup_snd ncg md gname si rem c h]
    exact countRows_sum _
  · intro ncg md gname si rem c h
    rw [checkDatasetGroup_snd ncg md gname si rem c h]
    rw [countRows_sum]
    rw [checkDatasetGroup_rows]
    exact (runItemsD_countP (fun v => cdgItem_countP ncg md gname si rem v
      (fun s => s == "pass" || s == "fail_mandatory" || s == "fail_optional")) _).symm

/-- Witness for the amended C3 at a concrete input. -/
theorem c3_sum_law_amended_witness :
    ((0, 1, 0) : Cnt).1 + ((0, 1, 0) : Cnt).2.1 + ((0, 1, 0) : Cnt).2.2 =
      (checkDatasetGroup
          (NCGroup.mk [] [("x", ⟨"float64", true, [PyVal.vnum "float64" "1.0"], []⟩)] [])
          ⟨[], [("data_variables",
            [⟨"x", none, none, [⟨"units", "string", none, "Mandatory"⟩]⟩])], []⟩
          "data_variables" (some 0) (fun _ _ => false)).1.countP
        (fun r => r.expected_dtype.isSome &&
          (r.status == "pass" || r.status == "fail_mandatory" ||
            r.status == "fail_optional")) :=
  c3_sum_law_amended.2.2.2
    (NCGroup.mk [] [("x", ⟨"float64", true, [PyVal.vnum "float64" "1.0"], []⟩)] [])
    ⟨[], [("data_variables",
      [⟨"x", none, none, [⟨"units", "string", none, "Mandatory"⟩]⟩])], []⟩
    "data_variables" (some 0) (fun _ _ => false) (0, 1, 0) (by decide)

/-- C10: whenever check_dataset_group records a section summary, its third
component (the not_used tally) is 0, and the pass and fail_mandatory tallies
equal the number of emitted sub-attribute rows (the rows with a present
expected-dtype cell) with those outcomes: the variable existence rows never
feed the counters. -/
theorem c10_dataset_summary :
    ∀ (ncg : NCGroup) (md : Metadata) (gname : String) (si : Option Nat)
      (rem : String → String → Bool) (c : Cnt),
      (checkDatasetGroup ncg md gname si rem).2 = some c →
        c.2.2 = 0 ∧
        c.1 = (checkDatasetGroup ncg md gname si rem).1.countP
          (fun r => r.expected_dtype.isSome && r.status == "pass") ∧
        c.2.1 = (checkDatasetGroup ncg md gname si rem).1.countP
          (fun r => r.expected_dtype.isSome && r.status == "fail_mandatory") := by
  intro ncg md gname si rem c h
  have hc := checkDatasetGroup_snd ncg md gname si rem c h
  subst hc
  rw [countRows_eq]
  refine ⟨?_, ?_, ?_⟩
  · rw [List.countP_eq_zero]
    intro r hrc
    have hne : r.status ≠ "fail_optional" := by
      refine @runItemsD_mem2 _ (fun r => r.status ≠ "fail_optional") ?_ _ r hrc
      intro v r hr
      obtain ⟨nv, a, rfl⟩ := cdgItem_counted_mem ncg md gname si rem v r hr
      exact cdgAttrRow_status_ne_fo md rem gname _ nv a
    simp [hne]
  · rw [checkDatasetGroup_rows]
    exact (runItemsD_countP (fun v => cdgItem_countP ncg md gname si rem v
      (fun s => s == "pass")) _).symm
  · rw [checkDatasetGroup_rows]
    exact (runItemsD_countP (fun v => cdgItem_countP ncg md gname si rem v
      (fun s => s == "fail_mandatory")) _).symm

/-- Witness for C10 at a concrete input: an available data variable with one
mandatory absent sub-attribute gives the summary (0, 1, 0). -/
theorem c10_dataset_summary_witness :
    ((0, 1, 0) : Cnt).2.2 = 0 ∧
    ((0, 1, 0) : Cnt).1 =
      (checkDatasetGroup
          (NCGroup.mk [] [("y", ⟨"float64", true, [PyVal.vnum "float64" "2.0"], []⟩)] [])
          ⟨[], [("data_variables",
            [⟨"y", none, none, [⟨"long_name", "string", none, "Mandatory"⟩]⟩])], []⟩
          "data_variables" (some 0) (fun _ _ => false)).1.countP
        (fun r => r.expected_dtype.isSome && r.status == "pass") ∧
    ((0, 1, 0) : Cnt).2.1 =
      (checkDatasetGroup
          (NCGroup.mk [] [("y", ⟨"float64", true, [PyVal.vnum "float64" "2.0"], []⟩)] [])
          ⟨[], [("data_variables",
            [⟨"y", none, none, [⟨"long_name", "string", none, "Mandatory"⟩]⟩])], []⟩
          "data_variables" (some 0) (fun _ _ => false)).1.countP
        (fun r => r.expected_dtype.isSome && r.status == "fail_mandatory") :=
  c10_dataset_summary
    (NCGroup.mk [] [("y", ⟨"float64", true, [PyVal.vnum "float64" "2.0"], []⟩)] [])
    ⟨[], [("data_variables",
      [⟨"y", none, none, [⟨"long_name", "string", none, "Mandatory"⟩]⟩])], []⟩
    "data_variables" (some 0) (fun _ _ => false) (0, 1, 0) (by decide)

/-- C4 counterexample: with the allowed-values table keyed by the literal
indexed name sweep_2/x and schema item sweep_<n>/x at sweep index 2, the
lookup of check_variables_group returns nothing although the literal indexed
name is a key of the table: the code tries only the de-indexed key, it never
first tries the literal (indexed) name as the claim states. -/
theorem c4_counterexample :
    expectedValueLookup [("sweep_2/x", [PyVal.vstr "v"])] (some 2)
        (substName (some 2) "sweep_<n>/x") = none ∧
    List.lookup (substName (some 2) "sweep_<n>/x")
        [("sweep_2/x", [PyVal.vstr "v"])] = some [PyVal.vstr "v"] := by decide

/-- C4 amended: with sweep index i, a schema name sweep_<n>/path (path made
of digit-free, slash-free, placeholder-free segments) has <n> replaced by i,
the leading sweep_-prefixed segment stripped before descending subgroups, and
the allowed-values lookup uses exactly one key: the de-indexed generic form
sweep_<n>/path, for every index and every table (the literal indexed name is
not tried). -/
theorem c4_sweep_path_amended :
    ∀ (i : Nat) (p : List String), p ≠ [] → (∀ s ∈ p, goodSeg s = true) →
      substName (some i) ("sweep_<n>/" ++ joinSlash p) =
          "sweep_" ++ natStr i ++ "/" ++ joinSlash p ∧
      pathParts (some i) ("sweep_" ++ natStr i ++ "/" ++ joinSlash p) = p ∧
      ∀ allowed : List (String × List PyVal),
        expectedValueLookup allowed (some i) ("sweep_" ++ natStr i ++ "/" ++ joinSlash p) =
          List.lookup ("sweep_<n>/" ++ joinSlash p) allowed := by
  intro i p hp hgood
  exact ⟨substName_generic i p hgood, pathParts_generic i p hp hgood,
    fun allowed => lookup_generic allowed i p hgood⟩

/-- Witness for the amended C4 at sweep index 2 and the path of the spec
scenario. -/
theorem c4_sweep_path_amended_witness :
    substName (some 2) ("sweep_<n>/" ++ joinSlash ["radar_parameters", "beam_width_h"]) =
        "sweep_" ++ natStr 2 ++ "/" ++ joinSlash ["radar_parameters", "beam_width_h"] ∧
    pathParts (some 2)
        ("sweep_" ++ natStr 2 ++ "/" ++ joinSlash ["radar_parameters", "beam_width_h"]) =
      ["radar_parameters", "beam_width_h"] ∧
    expectedValueLookup
        [("sweep_<n>/radar_parameters/beam_width_h", [PyVal.vnum "float32" "1.0"])]
        (some 2)
        ("sweep_" ++ natStr 2 ++ "/" ++ joinSlash ["radar_parameters", "beam_width_h"]) =
      List.lookup ("sweep_<n>/" ++ joinSlash ["radar_parameters", "beam_width_h"])
        [("sweep_<n>/radar_parameters/beam_width_h", [PyVal.vnum "float32" "1.0"])] :=
  have h := c4_sweep_path_amended 2 ["radar_parameters", "beam_width_h"] (by decide) (by decide)
  ⟨h.1, h.2.1, h.2.2 _⟩

/-- C5 counterexample: in check_variables a present variable declared
Mandatory with one declared sub-attribute whose own attribute_applicability
field is "Optional" and which is absent from the file yields a
fail_mandatory attribute row; the attribute's own applicability would demand
not_used, so the attribute row is governed by the parent variable's
applicability, not the attribute's own. -/
theorem c5_counterexample :
    ((checkVariables
        (NCGroup.mk [] [("v", ⟨"str", true, [PyVal.vstr "a"], []⟩)] [])
        ⟨[], [("Global_Ancillary_variables",
          [⟨"v", some "string", some "Mandatory",
            [⟨"units", "string", none, "Optional"⟩]⟩])], []⟩
        "Global_Ancillary_variables" (fun _ _ => false)).1.map Row.status) =
      ["pass", "fail_mandatory"] := by decide

/-- C5 amended: in check_variables and check_variables_group the sub-attribute
row is governed by the parent variable's applicability and the per-attribute
attribute_applicability field is ignored entirely (changing it changes
nothing); only in check_dataset_group does attribute_applicability govern the
attribute row: it is recorded as the row's requirement and an absent
attribute is classified fail_mandatory or not_used by it, while in
check_variables an absent attribute is classified by the parent's
requirement. -/
theorem c5_attr_applicability_amended :
    (∀ (md : Metadata) (rem : String → String → Bool) (g n req : String)
        (o : Option NCVar) (a : VarAttr) (s : String),
      cvAttrRow md rem g n req o { a with attribute_applicability := s } =
        cvAttrRow md rem g n req o a) ∧
    (∀ (md : Metadata) (rem : String → String → Bool) (g n req : String)
        (o : Option NCVar) (a : VarAttr) (s : String),
      cvgAttrRow md rem g n req o { a with attribute_applicability := s } =
        cvgAttrRow md rem g n req o a) ∧
    (∀ (md : Metadata) (rem : String → String → Bool) (g n : String)
        (ncvar : NCVar) (a : VarAttr),
      (cdgAttrRow md rem g n ncvar a).requirement = a.attribute_applicability) ∧
    (∀ (md : Metadata) (rem : String → String → Bool) (g n : String)
        (ncvar : NCVar) (a : VarAttr),
      List.lookup a.attribute_name ncvar.attrs = none →
        (cdgAttrRow md rem g n ncvar a).status =
          (if pyLower a.attribute_applicability = "mandatory" then "fail_mandatory"
           else "not_used")) ∧
    (∀ (md : Metadata) (rem : String → String → Bool) (g n req : String)
        (o : Option NCVar) (a : VarAttr),
      o.bind (fun nv => List.lookup a.attribute_name nv.attrs) = none →
        (cvAttrRow md rem g n req o a).map Row.status =
          Except.ok (if pyLower req = "mandatory" then "fail_mandatory" else "not_used")) := by
  refine ⟨?_, ?_, ?_, ?_, ?_⟩
  · intro md rem g n req o a s
    cases a
    rfl
  · intro md rem g n req o a s
    cases a
    rfl
  · intro md rem g n ncvar a
    simp only [cdgAttrRow]
    split <;> rfl
  · intro md rem g n ncvar a h
    simp only [cdgAttrRow, h]
  · intro md rem g n req o a h
    simp only [cvAttrRow, h]
    rfl

/-- Witness for the amended C5 at a concrete input: a dataset sub-attribute
with its own Optional applicability, absent from the variable, classified by
that field. -/
theorem c5_attr_applicability_amended_witness :
    (cdgAttrRow ⟨[], [], []⟩ (fun _ _ => false) "data_variables" "x"
        (⟨"float64", true, [], []⟩ : NCVar) ⟨"units", "string", none, "Optional"⟩).status =
      (if pyLower "Optional" = "mandatory" then "fail_mandatory" else "not_used") :=
  c5_attr_applicability_amended.2.2.2.1 ⟨[], [], []⟩ (fun _ _ => false) "data_variables" "x"
    ⟨"float64", true, [], []⟩ ⟨"units", "string", none, "Optional"⟩ (by decide)

/-- C6 counterexample: in check_variables the representative value of an
available variable is read with getValue, which raises for a non-scalar
variable; the exception escapes the item, no row is emitted for it and no
section summary is recorded, so an extraction failure does abort the run
instead of being recovered as None. -/
theorem c6_counterexample :
    checkVariables
        (NCGroup.mk [] [("arr", ⟨"float64", false, [PyVal.vnum "float64" "1.0"], []⟩)] [])
        ⟨[], [("Global_Ancillary_variables",
          [⟨"arr", some "double", some "Optional", []⟩])], []⟩
        "Global_Ancillary_variables" (fun _ _ => false) = ([], none) := by decide

/-- C6 amended: the safe extraction of check_variables_group never fails: a
variable with at least one element yields that first element (which is the
scalar value of a scalar variable), a variable with no elements yields None;
but in check_variables the representative value is read directly with
getValue, which errors for every non-scalar variable, and that exception
propagates out of the check. -/
theorem c6_value_extraction_amended :
    ∀ (v : NCVar) (x : PyVal) (xs : List PyVal),
      (v.data = x :: xs → safeValue v = some x) ∧
      (v.data = [] → safeValue v = none) ∧
      (v.isScalar = false → getValue v = .error ()) := by
  intro v x xs
  refine ⟨?_, ?_, ?_⟩
  · intro h
    cases hs : v.isScalar <;>
      simp [safeValue, extractRepr, getValue, hs, h, Except.toOption]
  · intro h
    cases hs : v.isScalar <;>
      simp [safeValue, extractRepr, getValue, hs, h, Except.toOption]
  · intro h
    simp [getValue, h]

/-- Witness for the amended C6 at a concrete input: the first element of an
array variable is extracted safely. -/
theorem c6_value_extraction_amended_witness :
    safeValue ⟨"float64", false, [PyVal.vnum "float64" "1.0"], []⟩ =
      some (PyVal.vnum "float64" "1.0") :=
  (c6_value_extraction_amended ⟨"float64", false, [PyVal.vnum "float64" "1.0"], []⟩
    (PyVal.vnum "float64" "1.0") []).1 rfl

/-- C7 counterexample: a run in which the flat-variable strategy raises (a
non-scalar variable hits getValue) ends with the exception escaped and the
data source closed zero times, so the data source is not closed on every
exit path. -/
theorem c7_counterexample :
    (validate
        ⟨[], [("Global_Ancillary_variables",
          [⟨"arr", some "double", some "Optional", []⟩])], []⟩
        (NCGroup.mk [] [("arr", ⟨"float64", false, [PyVal.vnum "float64" "1.0"], []⟩)] [])
        "o" (fun _ _ => false)).err = true ∧
    (validate
        ⟨[], [("Global_Ancillary_variables",
          [⟨"arr", some "double", some "Optional", []⟩])], []⟩
        (NCGroup.mk [] [("arr", ⟨"float64", false, [PyVal.vnum "float64" "1.0"], []⟩)] [])
        "o" (fun _ _ => false)).closes = 0 := by decide

/-- C7 amended: validate closes the data source exactly once on a run no
exception escapes, and does not close it at all on a run that raises partway
(nc.close() at line 633 is not protected by any try/finally or with-block). -/
theorem c7_close_paths_amended :
    ∀ (md : Metadata) (nc : NCGroup) (sopt : String) (rem : String → String → Bool),
      (validate md nc sopt rem).closes = if (validate md nc sopt rem).err then 0 else 1 := by
  intro md nc sopt rem
  suffices h : ∀ o : VOut, validate md nc sopt rem = o →
      o.closes = if o.err then 0 else 1 from h _ rfl
  intro o ho
  unfold validate at ho
  repeat' (first | (split at ho) | (simp only [] at ho))
  all_goals (subst ho; rfl)

/-- C9: a schema declaring the mandatory string global attribute title with
no allowed values, checked against any file whose root has no attribute
named title, yields exactly one row ("Global_Attributes", "title", "No",
"string", "None", "None", "None", "Mandatory", "fail_mandatory") and the
tally (0, 1, 0). -/
theorem c9_title_row :
    ∀ nc : NCGroup, List.lookup "title" nc.attrs = none →
      checkGlobalAttributes nc ⟨[⟨"title", "string", "Mandatory"⟩], [], []⟩ =
        ([⟨"Global_Attributes", "title", "No", some "string", some "None", some "None",
           some "None", "Mandatory", "fail_mandatory"⟩], (0, 1, 0)) := by
  intro nc h
  simp only [checkGlobalAttributes, cgaRow, List.map]
  rw [h]
  decide

/-- C8: the CLI takes two or three user arguments after the script name; with
no mode argument the mode defaults to "o"; a third user argument lowercasing
to f or o is accepted; any other mode or any other argument count exits with
code 1, which is nonzero.  Mode f targets every sweep_-prefixed group of the
file: the targeted names are a sorted permutation of them and the paired
sweep indices are the enumeration positions 0..n-1; mode o targets exactly
the group named sweep_0 with index 0, and when the schema has a
sweep_variables section but the file has no group sweep_0, the mode-o run
raises (the exception escapes validate). -/
theorem c8_cli_modes :
    (∀ argv : List String, argv.length < 3 ∨ 4 < argv.length → cliParse argv = .error 1) ∧
    (∀ s a b : String, cliParse [s, a, b] = .ok (a, b, "o")) ∧
    (∀ s a b m : String, pyLower m = "f" → cliParse [s, a, b, m] = .ok (a, b, "f")) ∧
    (∀ s a b m : String, pyLower m = "o" → cliParse [s, a, b, m] = .ok (a, b, "o")) ∧
    (∀ s a b m : String, pyLower m ≠ "f" → pyLower m ≠ "o" →
      cliParse [s, a, b, m] = .error 1) ∧
    (∀ (argv : List String) (e : Nat), cliParse argv = .error e → e ≠ 0) ∧
    (∀ nc : NCGroup,
      ((sweepTargets nc "f").map Prod.fst).Perm (sweepNames nc) ∧
      List.Sorted (· ≤ ·) ((sweepTargets nc "f").map Prod.fst) ∧
      (sweepTargets nc "f").map Prod.snd = List.range (sweepTargets nc "f").length) ∧
    (∀ nc : NCGroup, sweepTargets nc "o" = [("sweep_0", 0)]) ∧
    (∀ (md : Metadata) (nc : NCGroup) (rem : String → String → Bool),
      hasKey md "sweep_variables" = true → List.lookup "sweep_0" nc.groups = none →
        (validate md nc "o" rem).err = true) := by
  have hfst : ∀ nc : NCGroup, (sweepTargets nc "f").map Prod.fst = sortedSweeps nc := by
    intro nc
    show ((sortedSweeps nc).enum.map (fun p => (p.2, p.1))).map Prod.fst = sortedSweeps nc
    rw [List.map_map]
    exact List.enum_map_snd (sortedSweeps nc)
  refine ⟨?_, ?_, ?_, ?_, ?_, ?_, ?_, ?_, ?_⟩
  · intro argv h
    rcases argv with - | ⟨a, - | ⟨b, - | ⟨c, - | ⟨d, - | rest⟩⟩⟩⟩
    · rfl
    · rfl
    · rfl
    · exfalso
      simp only [List.length_cons, List.length_nil] at h
      omega
    · exfalso
      simp only [List.length_cons, List.length_nil] at h
      omega
    · rfl
  · intro s a b
    rfl
  · intro s a b m h
    simp [cliParse, h]
  · intro s a b m h
    simp [cliParse, h]
  · intro s a b m h1 h2
    simp [cliParse, h1, h2]
  · intro argv e h
    rcases argv with - | ⟨a, - | ⟨b, - | ⟨c, - | ⟨d, - | rest⟩⟩⟩⟩
    · simp only [cliParse, Except.error.injEq] at h
      omega
    · simp only [cliParse, Except.error.injEq] at h
      omega
    · simp only [cliParse, Except.error.injEq] at h
      omega
    · simp [cliParse] at h
    · simp only [cliParse] at h
      split at h
      · simp only [Except.error.injEq] at h
        omega
      · simp at h
    · simp only [cliParse, Except.error.injEq] at h
      omega
  · intro nc
    refine ⟨?_, ?_, ?_⟩
    · rw [hfst]
      exact List.perm_insertionSort _ _
    · rw [hfst]
      exact List.sorted_insertionSort _ _
    · show ((sortedSweeps nc).enum.map (fun p => (p.2, p.1))).map Prod.snd = _
      rw [List.map_map]
      have h1 : (Prod.snd ∘ fun p : Nat × String => (p.2, p.1)) = Prod.fst := rfl
      rw [h1, List.enum_map_fst]
      simp [sweepTargets]
  · intro nc
    simp [sweepTargets]
  · intro md nc rem hk hnone
    suffices h : ∀ o : VOut, validate md nc "o" rem = o → o.err = true from h _ rfl
    intro o ho
    unfold validate at ho
    repeat' (first | (split at ho) | (simp only [] at ho))
    all_goals (subst ho; try rfl)
    all_goals
      simp only [hk, Bool.true_and, Bool.and_self, Bool.or_true, Bool.false_or,
        sweepTargets, sweepLoop, hnone] at *
    all_goals simp_all [sweepTargets, sweepLoop, hnone]

/-- Witness for C8 at concrete inputs: a one-argument call exits with code 1,
and a mode-o run over a file without a sweep_0 group raises. -/
theorem c8_cli_modes_witness :
    cliParse ["fm301_cc.py", "file.nc"] = .error 1 ∧
    (validate ⟨[], [("sweep_variables", [])], []⟩ (NCGroup.mk [] [] []) "o"
      (fun _ _ => false)).err = true :=
  ⟨c8_cli_modes.1 ["fm301_cc.py", "file.nc"] (by decide),
   c8_cli_modes.2.2.2.2.2.2.2.2 ⟨[], [("sweep_variables", [])], []⟩ (NCGroup.mk [] [] [])
     (fun _ _ => false) (by decide) rfl⟩

/-- Witness for C9 at a concrete file with no root attributes. -/
theorem c9_title_row_witness :
    checkGlobalAttributes (NCGroup.mk [] [] []) ⟨[⟨"title", "string", "Mandatory"⟩], [], []⟩ =
      ([⟨"Global_Attributes", "title", "No", some "string", some "None", some "None",
         some "None", "Mandatory", "fail_mandatory"⟩], (0, 1, 0)) :=
  c9_title_row (NCGroup.mk [] [] []) (by decide)

end FM301
